import Mathlib

/-!
# Crypto-API: the price-lookup and search-history handlers

A shallow embedding of
`services/email-price-service/handler.js` and
`services/search-history-service/handler.js`.

Conventions of the embedding.

* A JavaScript string is a Lean `String`; `String.prototype.includes` is `includes`.
* A thrown `Error` is represented by its `message` (`Except String α`): every `catch`
  of the two files reads nothing else of an error, except the `instanceof SyntaxError`
  test, which is represented by the constructor `Parsed.syntaxError`.
* Module-level mutable variables (`mailtrapTokenCache`, `coinGeckoApiKeyCache`,
  `transporter`) are the explicit state `Caches`.
* Every call to an external collaborator (parameter store, price provider, table,
  mail relay) appends an `Effect` to a trace; what the collaborator answers is read
  from a `World` (one answer per call site, each call site runs at most once per
  invocation of the lookup handler) or from a `Store` (the n-th scan's answer).
* Library functions of the JavaScript platform that the handlers call but that are
  not part of the repository (`JSON.parse`, base64 decoding, case mapping, date
  formatting) are the fields of `Platform`.
* Logging (`console.log`, `console.warn`, `console.error`) has no effect of its own and
  is left out, except where the construction of the logged text can throw: the log line
  of the lookup handler that converts the unvalidated `cryptoId` and `email` to strings
  (see `parseRequest`).
-/

namespace CryptoApi

/-! ## JavaScript values and strings -/

/-- A JavaScript value as far as the handlers observe one: its type, its truthiness and
its string conversion. A number is given by its truthiness (false for `0`, `-0`, `NaN`)
and its `String()` form; an array or a plain object is given by its `String()` form.
Every value of this type has a string conversion; an object whose conversion throws
can reach the handlers only as a property of the parsed request body, where it is
`Parsed.unprintable`. -/
inductive JsValue where
  | undefined
  | null
  | bool (b : Bool)
  | number (isTruthy : Bool) (text : String)
  | string (s : String)
  | object (text : String)
  deriving DecidableEq, Repr

/-- JavaScript truthiness (`!v` is the negation). -/
def JsValue.truthy : JsValue → Bool
  | .undefined => false
  | .null => false
  | .bool b => b
  | .number t _ => t
  | .string s => decide (s ≠ "")
  | .object _ => true

/-- String conversion, as performed by a template literal or by `toString()`. -/
def JsValue.toStr : JsValue → String
  | .undefined => "undefined"
  | .null => "null"
  | .bool true => "true"
  | .bool false => "false"
  | .number _ t => t
  | .string s => s
  | .object t => t

/-- The nullish-coalescing operator `a ?? b`. -/
def JsValue.orElse (a b : JsValue) : JsValue :=
  match a with
  | .undefined => b
  | .null => b
  | v => v

/-- Search of `needle` at every position of a list of characters. -/
def includesAux (needle : List Char) : List Char → Bool
  | [] => needle.isPrefixOf []
  | c :: cs => needle.isPrefixOf (c :: cs) || includesAux needle cs

/-- The method `s.includes(needle)`. -/
def includes (s needle : String) : Bool :=
  includesAux needle.data s.data

/-- The test `typeof v !== 'string' || !v.includes('@')` of both handlers and of
`sendNotificationEmail`. -/
def notEmailShaped : JsValue → Bool
  | .string s => !includes s "@"
  | _ => true

/-! ## Responses -/

/-- An API Gateway response: `{ statusCode, body: JSON.stringify(body), headers }`. The
body is kept as the value handed to `JSON.stringify`. -/
structure Response (β : Type) where
  statusCode : Nat
  body : β
  headers : List (String × String) := [("Content-Type", "application/json")]
  deriving DecidableEq, Repr

/-- The persisted record built by `recordSearchAndNotify` (`item`). -/
structure SearchRecord where
  searchId : String
  timestamp : Nat
  cryptocurrencyId : JsValue
  queriedPrice : Option String
  queriedCurrency : String
  fetchStatus : String
  recipientEmail : JsValue
  deriving DecidableEq, Repr

/-- The body of a lookup response: the record, or `{ error, details }`. -/
inductive LookupBody where
  | record (item : SearchRecord)
  | failure (error details : String)
  deriving DecidableEq, Repr

/-- The function `createErrorResponse` of the email-price service. -/
def createErrorResponse (message : String) : Response LookupBody :=
  if includes message "Unsupported HTTP method" then
    { statusCode := 405, body := .failure message "Only POST method is accepted." }
  else if includes message "Missing" || includes message "Invalid JSON"
      || includes message "Invalid 'email' format" then
    { statusCode := 400, body := .failure "Bad Request" message }
  else if includes message "Failed to fetch price" || includes message "Price data not found" then
    { statusCode := 502, body := .failure "Failed to retrieve cryptocurrency data." message }
  else if includes message "Failed to store search history" then
    { statusCode := 500, body := .failure "Failed to record search." message }
  else if includes message "Could not retrieve Mailtrap token"
      || includes message "Could not retrieve CoinGecko API key" then
    { statusCode := 500, body := .failure "Internal configuration error." message }
  else
    { statusCode := 500, body := .failure "An internal server error occurred." message }

/-! ## Configuration, platform, state, collaborators -/

/-- The environment variables read when the module is loaded. -/
structure Env where
  tableName : String
  mailtrapSsmParamName : String
  mailtrapUser : String
  fromEmail : String
  coinGeckoApiKeySsmParamName : String
  deriving DecidableEq, Repr

/-- What `JSON.parse(requestBody)` produced, as far as the lookup handler observes it:
a `SyntaxError`; the value `null` (reading a property of it throws a `TypeError`); a
JSON value whose property `cryptoId` or `email` is an array or object whose conversion
to a string throws, such as `{"toString": 1}`; or any other JSON value, given by the
values of its properties `cryptoId` and `email` (`undefined` when it has no such
property), both of which have a string conversion. -/
inductive Parsed where
  | syntaxError (message : String)
  | null
  | unprintable
  | value (cryptoId email : JsValue)
  deriving DecidableEq, Repr

/-- Library functions of the JavaScript platform used by the handlers. -/
structure Platform where
  /-- The expression `Buffer.from(body, 'base64').toString('utf-8')`. -/
  base64Decode : String → String
  /-- The function `JSON.parse`. -/
  jsonParse : String → Parsed
  /-- The method `String.prototype.toLowerCase`. -/
  toLowerCase : String → String
  /-- The method `String.prototype.toUpperCase`. -/
  toUpperCase : String → String
  /-- The expression `new Date(t).toLocaleString('en-AU', aestTimeOptions)`. -/
  toLocaleString : Nat → String
  /-- The expression `new Date(t).toISOString()`. -/
  toISOString : Nat → String

/-- The nodemailer transport held in the module variable `transporter`. -/
structure Transporter where
  host : String
  port : Nat
  secure : Bool
  user : String
  pass : String
  deriving DecidableEq, Repr

/-- The module-level mutable variables of the email-price service. `none` is
`undefined`. -/
structure Caches where
  mailtrapTokenCache : Option String
  coinGeckoApiKeyCache : Option String
  transporter : Option Transporter
  deriving DecidableEq, Repr

/-- The rendered notification (`getEmailContent`). -/
structure EmailContent where
  subject : String
  html : String
  text : String
  deriving DecidableEq, Repr

/-- The `mailOptions` handed to `transporter.sendMail`. -/
structure MailOptions where
  /-- The field `from`. -/
  sender : String
  /-- The field `to`. -/
  recipient : JsValue
  subject : String
  html : String
  text : String
  deriving DecidableEq, Repr

/-- A request sent to an external collaborator. -/
inductive Effect where
  /-- The call `ssmClient.send(new GetParameterCommand({ Name, WithDecryption: true }))`. -/
  | ssmGetParameter (name : String)
  /-- The call `axios.get(url, options)` with `ids`, `vs_currencies` and the API key header. -/
  | priceGet (ids currency apiKey : String)
  /-- The call `docClient.send(new PutCommand({ TableName, Item }))`. -/
  | dbPut (tableName : String) (item : SearchRecord)
  /-- The call `nodemailer.createTransport(...)`. -/
  | createTransport (t : Transporter)
  /-- The call `transporter.sendMail(mailOptions)`. -/
  | sendMail (options : MailOptions)
  /-- The call `docClient.send(new ScanCommand(params))` of the history service. -/
  | dbScan (tableName : String) (email : String) (exclusiveStartKey : Option String)
  deriving DecidableEq, Repr

/-- The answer of the parameter store to one `GetParameter` request: a rejection with
its message, or a response whose `Parameter` may be absent and whose `Parameter.Value`
may be absent. -/
inductive SsmResult where
  | rejected (message : String)
  | response (parameter : Option (Option String))
  deriving DecidableEq, Repr

/-- What the outside world answers during one invocation of the lookup handler. Each
field is the answer to one call site, consulted only if that call is made. -/
structure World where
  /-- The value of `uuidv4()`. -/
  uuid : String
  /-- The value of `Date.now()`. -/
  now : Nat
  /-- The answer to the `GetParameter` request of `getCoinGeckoApiKey`. -/
  ssmKey : SsmResult
  /-- The outcome of the `try` block of `fetchCryptoPrice` up to the extraction of the
  price: the message of whatever was thrown, or the value of
  `response.data?.[lookupId]?.[currency]`. -/
  priceApi : Except String JsValue
  /-- The outcome of the `PutCommand`. -/
  dbPut : Except String Unit
  /-- The answer to the `GetParameter` request of `getMailtrapToken`. -/
  ssmMail : SsmResult
  /-- The outcome of `nodemailer.createTransport`. -/
  createTransport : Except String Unit
  /-- The outcome of `transporter.sendMail`: the `messageId` of the receipt. -/
  sendMail : Except String String

/-- The result of a function of the email-price service: what it returned or threw,
the module variables afterwards, and the requests it issued, in order. -/
abbrev Outcome (α : Type) := Except String α × Caches × List Effect

/-! ## Secret cache -/

/-- The condition `response.Parameter && response.Parameter.Value`: the value when it
is truthy. -/
def SsmResult.value? : SsmResult → Option String
  | .response (some (some v)) => if v ≠ "" then some v else none
  | _ => none

/-- The condition `if (cache)` on a module variable: the cached value when truthy. -/
def cached? : Option String → Option String
  | some v => if v ≠ "" then some v else none
  | none => none

/-- The function `getMailtrapToken`. -/
def getMailtrapToken (env : Env) (ssm : SsmResult) (c : Caches) : Outcome String :=
  match cached? c.mailtrapTokenCache with
  | some v => (.ok v, c, [])
  | none =>
    let request := [Effect.ssmGetParameter env.mailtrapSsmParamName]
    match ssm with
    | .rejected m =>
      (.error ("Could not retrieve Mailtrap token from SSM: " ++ m), c, request)
    | .response p =>
      match (SsmResult.response p).value? with
      | some v => (.ok v, { c with mailtrapTokenCache := some v }, request)
      | none =>
        (.error ("Could not retrieve Mailtrap token from SSM: "
          ++ "Parameter value not found in SSM response for Mailtrap token."), c, request)

/-- The function `getCoinGeckoApiKey`. -/
def getCoinGeckoApiKey (env : Env) (ssm : SsmResult) (c : Caches) : Outcome String :=
  match cached? c.coinGeckoApiKeyCache with
  | some v => (.ok v, c, [])
  | none =>
    let request := [Effect.ssmGetParameter env.coinGeckoApiKeySsmParamName]
    match ssm with
    | .rejected m =>
      (.error ("Could not retrieve CoinGecko API key from SSM: " ++ m), c, request)
    | .response p =>
      match (SsmResult.response p).value? with
      | some v => (.ok v, { c with coinGeckoApiKeyCache := some v }, request)
      | none =>
        (.error ("Could not retrieve CoinGecko API key from SSM: "
          ++ "Parameter value not found in SSM response for CoinGecko API key."), c, request)

/-- The function `ensureTransporter`. -/
def ensureTransporter (env : Env) (w : World) (c : Caches) : Outcome Unit :=
  match c.transporter with
  | some _ => (.ok (), c, [])
  | none =>
    match getMailtrapToken env w.ssmMail c with
    | (.error e, c1, t1) => (.error e, c1, t1)
    | (.ok token, c1, t1) =>
      let tr : Transporter :=
        { host := "live.smtp.mailtrap.io", port := 587, secure := false,
          user := env.mailtrapUser, pass := token }
      match w.createTransport with
      | .error e => (.error e, c1, t1 ++ [Effect.createTransport tr])
      | .ok () => (.ok (), { c1 with transporter := some tr }, t1 ++ [Effect.createTransport tr])

/-! ## Price lookup -/

/-- The function `fetchCryptoPrice`. A `cryptoId` that is not a string has no method
`toLowerCase`, and the first statement throws a `TypeError`. -/
def fetchCryptoPrice (P : Platform) (env : Env) (w : World) (cryptoId : JsValue)
    (currency : String) (c : Caches) : Outcome JsValue :=
  match cryptoId with
  | .string s =>
    let lookupId := P.toLowerCase s
    match getCoinGeckoApiKey env w.ssmKey c with
    | (.error e, c1, t1) => (.error e, c1, t1)
    | (.ok apiKey, c1, t1) =>
      let t2 := t1 ++ [Effect.priceGet lookupId currency apiKey]
      match w.priceApi with
      | .error m => (.error ("Failed to fetch price from CoinGecko: " ++ m), c1, t2)
      | .ok price =>
        if price ≠ .undefined ∧ price ≠ .null then (.ok price, c1, t2)
        else
          (.error ("Failed to fetch price from CoinGecko: "
            ++ ("Price data not found for " ++ s ++ " in " ++ currency ++ ".")), c1, t2)
  | .undefined => (.error "Cannot read properties of undefined (reading 'toLowerCase')", c, [])
  | .null => (.error "Cannot read properties of null (reading 'toLowerCase')", c, [])
  | _ => (.error "cryptoId.toLowerCase is not a function", c, [])

/-- The function `writeSearchToDb`. -/
def writeSearchToDb (env : Env) (w : World) (item : SearchRecord) (c : Caches) : Outcome Unit :=
  match w.dbPut with
  | .ok () => (.ok (), c, [Effect.dbPut env.tableName item])
  | .error m =>
    (.error ("Failed to store search history: " ++ m), c, [Effect.dbPut env.tableName item])

/-- The function `getEmailContent`. -/
def getEmailContent (P : Platform) (item : SearchRecord) : EmailContent :=
  let displayTimestamp := P.toLocaleString item.timestamp
  let priceDisplay :=
    match item.queriedPrice with
    | some p => p ++ " " ++ P.toUpperCase item.queriedCurrency
    | none => "Could not be fetched (" ++ item.fetchStatus ++ ")"
  let id := item.cryptocurrencyId.toStr
  { subject := "Crypto Price Search: " ++ id
    html := "\n        <h1>Cryptocurrency Price Information</h1>\n        <p>You requested the price for:</p>\n        <ul>\n            <li>Cryptocurrency: <strong>"
      ++ id ++ "</strong></li>\n            <li>Current Price: <strong>" ++ priceDisplay
      ++ "</strong></li>\n            <li>Timestamp: " ++ displayTimestamp
      ++ "</li>\n            <li>Search ID: " ++ item.searchId
      ++ "</li>\n            <li>Fetch Status: " ++ item.fetchStatus
      ++ "</li>\n        </ul>\n    "
    text := "Cryptocurrency Price Information:\nCryptocurrency: " ++ id
      ++ "\nCurrent Price: " ++ priceDisplay ++ "\nTimestamp: " ++ P.toISOString item.timestamp
      ++ "\nSearch ID: " ++ item.searchId ++ "\nFetch Status: " ++ item.fetchStatus }

/-- The function `sendNotificationEmail`: it returns the receipt's `messageId`, or
`undefined` (`none`) when the recipient is refused or `sendMail` threw. -/
def sendNotificationEmail (env : Env) (w : World) (content : EmailContent)
    (recipientEmail : JsValue) (c : Caches) : Outcome (Option String) :=
  if !recipientEmail.truthy || notEmailShaped recipientEmail then (.ok none, c, [])
  else
    match ensureTransporter env w c with
    | (.error e, c1, t1) => (.error e, c1, t1)
    | (.ok (), c1, t1) =>
      let mailOptions : MailOptions :=
        { sender := env.fromEmail, recipient := recipientEmail, subject := content.subject,
          html := content.html, text := content.text }
      match w.sendMail with
      | .ok messageId => (.ok (some messageId), c1, t1 ++ [Effect.sendMail mailOptions])
      | .error _ => (.ok none, c1, t1 ++ [Effect.sendMail mailOptions])

/-- The record `item` that `recordSearchAndNotify` builds from the result of the price
fetch: `price` and `fetchStatus` as left by the first `try`/`catch`. -/
def buildItem (w : World) (cryptoId recipientEmail : JsValue)
    (fetched : Except String JsValue) : SearchRecord :=
  let price : JsValue := match fetched with
    | .ok p => p
    | .error _ => .null
  let fetchStatus : String := match fetched with
    | .ok _ => "Success"
    | .error m => "Failed: " ++ m
  { searchId := w.uuid
    timestamp := w.now
    cryptocurrencyId := cryptoId
    queriedPrice := if price ≠ .null then some price.toStr else none
    queriedCurrency := "usd"
    fetchStatus := fetchStatus
    recipientEmail := recipientEmail }

/-- The function `recordSearchAndNotify`. -/
def recordSearchAndNotify (P : Platform) (env : Env) (w : World)
    (cryptoId recipientEmail : JsValue) (c : Caches) : Outcome SearchRecord :=
  match fetchCryptoPrice P env w cryptoId "usd" c with
  | (fetched, c1, t1) =>
    let item := buildItem w cryptoId recipientEmail fetched
    match writeSearchToDb env w item c1 with
    | (.error dbError, c2, t2) => (.error dbError, c2, t1 ++ t2)
    | (.ok (), c2, t2) =>
      match sendNotificationEmail env w (getEmailContent P item) recipientEmail c2 with
      | (_, c3, t3) =>
        match fetched with
        | .error fetchError => (.error fetchError, c3, t1 ++ t2 ++ t3)
        | .ok _ => (.ok item, c3, t1 ++ t2 ++ t3)

/-! ## Lookup handler -/

/-- The incoming API Gateway event, as the two handlers read it. `body` is `none` when
the event has no body (`undefined` or `null`) and a string otherwise, as API Gateway
delivers it. -/
structure Event where
  /-- The field `event.httpMethod`. -/
  httpMethod : JsValue
  /-- The expression `event.requestContext?.http?.method`. -/
  contextMethod : JsValue
  body : Option String
  isBase64Encoded : Bool
  /-- The expression `event.queryStringParameters?.email`. -/
  queryEmail : JsValue
  deriving DecidableEq, Repr

/-- The inner `try` of `handler`, from the decoding of the body to the last validation:
the pair `(cryptoId, recipientEmail)` handed to the orchestrator, or the message of the
error that leaves the inner `catch`. Reading `parsedBody.cryptoId` throws a `TypeError`
on `null`. The log line that follows the two assignments converts `cryptoId` and
`recipientEmail` to strings before any validation, and throws a `TypeError` when a
conversion does. Both messages are those of V8. -/
def parseRequest (P : Platform) (body : String) (isBase64Encoded : Bool) :
    Except String (JsValue × JsValue) :=
  let requestBody := if isBase64Encoded then P.base64Decode body else body
  match P.jsonParse requestBody with
  | .syntaxError m => .error ("Invalid JSON format in request body: " ++ m)
  | .null => .error "Cannot read properties of null (reading 'cryptoId')"
  | .unprintable => .error "Cannot convert object to primitive value"
  | .value cryptoId email =>
    if !cryptoId.truthy then .error "Missing 'cryptoId' in request body"
    else if !email.truthy then .error "Missing 'email' in request body"
    else if notEmailShaped email then .error "Invalid 'email' format in request body"
    else .ok (cryptoId, email)

/-- The exported `handler` of the email-price service: the response, the module
variables afterwards and the requests issued. -/
def handler (P : Platform) (env : Env) (w : World) (event : Event) (c : Caches) :
    Response LookupBody × Caches × List Effect :=
  let actualHttpMethod := event.httpMethod.orElse event.contextMethod
  if actualHttpMethod ≠ .string "POST" then
    (createErrorResponse ("Unsupported HTTP method: " ++ actualHttpMethod.toStr), c, [])
  else
    match event.body with
    | none => (createErrorResponse "Missing request body for POST", c, [])
    | some body =>
      if body = "" then (createErrorResponse "Missing request body for POST", c, [])
      else
        match parseRequest P body event.isBase64Encoded with
        | .error e => (createErrorResponse e, c, [])
        | .ok (cryptoId, recipientEmail) =>
          match recordSearchAndNotify P env w cryptoId recipientEmail c with
          | (.ok item, c1, t) => ({ statusCode := 200, body := .record item }, c1, t)
          | (.error e, c1, t) => (createErrorResponse e, c1, t)

/-! ## Search-history service -/

/-- One answer of the table to a `ScanCommand`: `data.Items` and
`data.LastEvaluatedKey`, each possibly absent. A key that is present is an object,
hence truthy. -/
structure ScanPage (ι : Type) where
  items : Option (List ι)
  lastEvaluatedKey : Option String
  deriving DecidableEq, Repr

/-- The table as the history service meets it: the outcome of the n-th scan of one
invocation (a rejection with its message, or a page). -/
abbrev Store (ι : Type) := Nat → Except String (ScanPage ι)

/-- The body of a history response: the items, or `{ error, details }`. -/
inductive HistoryBody (ι : Type) where
  | items (all : List ι)
  | failure (error details : String)
  deriving DecidableEq, Repr

/-- The function `createResponse` of the search-history service. -/
def createResponse {ι : Type} (statusCode : Nat) (body : HistoryBody ι) :
    Response (HistoryBody ι) :=
  { statusCode := statusCode, body := body }

/-- The function `createErrorResponse` of the search-history service. -/
def createHistoryErrorResponse {ι : Type} (message : String) : Response (HistoryBody ι) :=
  if includes message "Unsupported HTTP method" then
    createResponse 405 (.failure message "Only GET method is accepted.")
  else if includes message "Missing 'email'" || includes message "Invalid 'email' format" then
    createResponse 400 (.failure "Bad Request" message)
  else if includes message "Failed to retrieve search history" then
    createResponse 500 (.failure "Failed to retrieve search history." message)
  else
    createResponse 500 (.failure "Internal Server Error" message)

/-- The `do ... while (data.LastEvaluatedKey)` loop of `fetchSearchHistoryByEmail`,
entered for the scan number `n` with `params.ExclusiveStartKey = startKey` and the
items accumulated so far. `fuel` bounds the number of iterations: `none` is returned
when it is used up before the table stops handing out keys. -/
def scanLoop {ι : Type} (tableName : String) (store : Store ι) (email : String) :
    Nat → Nat → Option String → List ι → List Effect →
      Option (Except String (List ι) × List Effect)
  | 0, _, _, _, _ => none
  | fuel + 1, n, startKey, allItems, trace =>
    let trace1 := trace ++ [Effect.dbScan tableName email startKey]
    match store n with
    | .error m => some (.error ("Failed to retrieve search history: " ++ m), trace1)
    | .ok data =>
      let allItems1 := match data.items with
        | some xs => allItems ++ xs
        | none => allItems
      match data.lastEvaluatedKey with
      | some key => scanLoop tableName store email fuel (n + 1) (some key) allItems1 trace1
      | none => some (.ok allItems1, trace1)

/-- The function `fetchSearchHistoryByEmail`. -/
def fetchSearchHistoryByEmail {ι : Type} (tableName : String) (store : Store ι)
    (fuel : Nat) (email : String) : Option (Except String (List ι) × List Effect) :=
  scanLoop tableName store email fuel 0 none [] []

/-- The exported `handler` of the search-history service: the response and the scans
issued (`none` when the fuel of the scan loop is used up). -/
def historyHandler {ι : Type} (tableName : String) (store : Store ι) (fuel : Nat)
    (event : Event) : Option (Response (HistoryBody ι) × List Effect) :=
  let httpMethod := event.contextMethod.orElse event.httpMethod
  if httpMethod ≠ .string "GET" then
    some (createHistoryErrorResponse ("Unsupported HTTP method: " ++ httpMethod.toStr), [])
  else
    let recipientEmail := event.queryEmail
    if !recipientEmail.truthy then
      some (createHistoryErrorResponse "Missing 'email' query string parameter", [])
    else
      match recipientEmail with
      | .string email =>
        if !includes email "@" then
          some (createHistoryErrorResponse "Invalid 'email' format in query string parameter", [])
        else
          match fetchSearchHistoryByEmail tableName store fuel email with
          | none => none
          | some (.ok items, trace) => some (createResponse 200 (.items items), trace)
          | some (.error e, trace) => some (createHistoryErrorResponse e, trace)
      | _ => some (createHistoryErrorResponse "Invalid 'email' format in query string parameter", [])

/-! ## Sequential runs of the secret getters -/

/-- The two secret getters. -/
inductive Getter where
  | mailtrapToken
  | coinGeckoApiKey
  deriving DecidableEq, Repr

/-- A call to one of the getters, with the parameter store's answer should the getter
ask. -/
def callGetter (env : Env) (g : Getter) (ssm : SsmResult) (c : Caches) : Outcome String :=
  match g with
  | .mailtrapToken => getMailtrapToken env ssm c
  | .coinGeckoApiKey => getCoinGeckoApiKey env ssm c

/-- The module variables after a sequence of getter calls, run one after the other. -/
def runGetters (env : Env) : List (Getter × SsmResult) → Caches → Caches
  | [], c => c
  | (g, ssm) :: rest, c => runGetters env rest (callGetter env g ssm c).2.1

/-- The cache variable a getter reads and writes. -/
def Getter.cache (g : Getter) (c : Caches) : Option String :=
  match g with
  | .mailtrapToken => c.mailtrapTokenCache
  | .coinGeckoApiKey => c.coinGeckoApiKeyCache

/-! ## The orchestrator's result -/

/-- What `recordSearchAndNotify` returns or throws, read off the outcome of the price
fetch and of the store write alone. -/
def orchestratorResult (w : World) (cryptoId recipientEmail : JsValue)
    (fetched : Except String JsValue) : Except String SearchRecord :=
  match w.dbPut with
  | .error m => .error ("Failed to store search history: " ++ m)
  | .ok () =>
    match fetched with
    | .error fetchError => .error fetchError
    | .ok _ => .ok (buildItem w cryptoId recipientEmail fetched)

/-- The response of the lookup handler, read off the event, the validation of the body
and the outcome of the price fetch and of the store write. -/
def lookupResponse (P : Platform) (env : Env) (w : World) (event : Event) (c : Caches) :
    Response LookupBody :=
  let actualHttpMethod := event.httpMethod.orElse event.contextMethod
  if actualHttpMethod ≠ .string "POST" then
    createErrorResponse ("Unsupported HTTP method: " ++ actualHttpMethod.toStr)
  else
    match event.body with
    | none => createErrorResponse "Missing request body for POST"
    | some body =>
      if body = "" then createErrorResponse "Missing request body for POST"
      else
        match parseRequest P body event.isBase64Encoded with
        | .error e => createErrorResponse e
        | .ok (cryptoId, recipientEmail) =>
          match orchestratorResult w cryptoId recipientEmail
              (fetchCryptoPrice P env w cryptoId "usd" c).1 with
          | .ok item => { statusCode := 200, body := .record item }
          | .error e => createErrorResponse e

/-! ## Kinds of requests in a trace -/

/-- A store write. -/
def Effect.isDbPut : Effect → Bool
  | .dbPut _ _ => true
  | _ => false

/-- A request to the mail relay: building the transport or sending a message. -/
def Effect.isMail : Effect → Bool
  | .createTransport _ => true
  | .sendMail _ => true
  | _ => false

/-- A request to the price provider. -/
def Effect.isPriceGet : Effect → Bool
  | .priceGet _ _ _ => true
  | _ => false

/-- A request to the parameter store. -/
def Effect.isSsm : Effect → Bool
  | .ssmGetParameter _ => true
  | _ => false

/-- A scan of the table. -/
def Effect.isDbScan : Effect → Bool
  | .dbScan _ _ _ => true
  | _ => false

/-- The requests of the email step of `recordSearchAndNotify` for the record `item`,
started with the module variables `c`: those of `sendNotificationEmail` when the store
write succeeded, none when it failed. -/
def emailStepTrace (P : Platform) (env : Env) (w : World) (item : SearchRecord)
    (recipientEmail : JsValue) (c : Caches) : List Effect :=
  match w.dbPut with
  | .ok () => (sendNotificationEmail env w (getEmailContent P item) recipientEmail c).2.2
  | .error _ => []

/-! ## Paged scans -/

/-- The items of a sequence of pages, page after page (a page without `Items`
contributes none). -/
def concatItems {ι : Type} : List (ScanPage ι) → List ι
  | [] => []
  | p :: ps => p.items.getD [] ++ concatItems ps

/-- A sequence of pages as the table hands them out for one query: it is not empty,
every page but the last carries a continuation key and the last carries none. -/
def chained {ι : Type} : List (ScanPage ι) → Bool
  | [] => false
  | [p] => p.lastEvaluatedKey.isNone
  | p :: q :: rest => p.lastEvaluatedKey.isSome && chained (q :: rest)

/-- The scans that fetch a sequence of pages one by one: the first without a start key,
each later one starting from the key of the page before. -/
def pageScans {ι : Type} (tableName email : String) (pages : List (ScanPage ι)) : List Effect :=
  (none :: pages.dropLast.map (fun p => p.lastEvaluatedKey)).map
    (Effect.dbScan tableName email)

/-! ## Valid requests -/

/-- A valid POST request to the lookup handler: the resolved method is `POST`, the body
is present and parses to a value whose `cryptoId` is the non-empty string `cryptoId`
and whose `email` is the string `email`, which contains `@`. -/
def validPost (P : Platform) (event : Event) (cryptoId email : String) : Bool :=
  decide (event.httpMethod.orElse event.contextMethod = .string "POST") &&
  match event.body with
  | none => false
  | some body =>
    decide (body ≠ "") &&
    decide (P.jsonParse (if event.isBase64Encoded then P.base64Decode body else body)
      = .value (.string cryptoId) (.string email)) &&
    decide (cryptoId ≠ "") && includes email "@"

/-! ## Sample data for concrete evaluations -/

/-- A configuration. -/
def sampleEnv : Env :=
  { tableName := "CryptoSearchHistory"
    mailtrapSsmParamName := "/crypto-api/mailtrap-token"
    mailtrapUser := "api"
    fromEmail := "noreply@example.com"
    coinGeckoApiKeySsmParamName := "/crypto-api/coingecko-key" }

/-- The platform functions on the inputs of the examples below: `JSON.parse` on five
request bodies (any other text is reported as a syntax error), case mapping on ASCII
letters, the two renderings of the instant 1700000000000. Base64 decoding is not
consulted by the examples. -/
def samplePlatform : Platform :=
  { base64Decode := fun _ => ""
    jsonParse := fun s =>
      if s = "\x7b\"cryptoId\":\"bitcoin\",\"email\":\"a@b.com\"\x7d" then
        .value (.string "bitcoin") (.string "a@b.com")
      else if s = "\x7b\"cryptoId\":\"bitcoin\",\"email\":\"not-an-email\"\x7d" then
        .value (.string "bitcoin") (.string "not-an-email")
      else if s = "\x7b\"email\":\"not-an-email\"\x7d" then
        .value .undefined (.string "not-an-email")
      else if s = "\x7b\"cryptoId\":\x7b\"toString\":1\x7d,\"email\":\"not-an-email\"\x7d" then
        .unprintable
      else if s = "null" then .null
      else .syntaxError ("Unexpected token in JSON: " ++ s)
    toLowerCase := fun s => String.mk (s.data.map Char.toLower)
    toUpperCase := fun s => String.mk (s.data.map Char.toUpper)
    toLocaleString := fun t =>
      if t = 1700000000000 then "15 Nov 2023, 9:13:20 am AEDT" else ""
    toISOString := fun t =>
      if t = 1700000000000 then "2023-11-14T22:13:20.000Z" else "" }

/-- A world in which every collaborator answers successfully. -/
def sampleWorld : World :=
  { uuid := "1b9d6bcd-bbfd-4b2d-9b5d-ab8dfbbd4bed"
    now := 1700000000000
    ssmKey := .response (some (some "CG-demo-key"))
    priceApi := .ok (.number true "65000")
    dbPut := .ok ()
    ssmMail := .response (some (some "mailtrap-token"))
    createTransport := .ok ()
    sendMail := .ok "<message-1@example.com>" }

/-- The module variables of a freshly loaded module. -/
def freshCaches : Caches :=
  { mailtrapTokenCache := none, coinGeckoApiKeyCache := none, transporter := none }

/-- A POST event with the given body, as delivered by an HTTP API. -/
def postEvent (body : String) : Event :=
  { httpMethod := .undefined
    contextMethod := .string "POST"
    body := some body
    isBase64Encoded := false
    queryEmail := .undefined }

/-- The body `{"cryptoId":"bitcoin","email":"a@b.com"}`. -/
def bitcoinBody : String := "\x7b\"cryptoId\":\"bitcoin\",\"email\":\"a@b.com\"\x7d"

/-- Two pages of stored search ids: the first carries a continuation key. -/
def samplePages : List (ScanPage String) :=
  [ { items := some ["search-1", "search-2"], lastEvaluatedKey := some "key-1" },
    { items := some ["search-3"], lastEvaluatedKey := none } ]

/-- A table that answers the successive scans with the given pages, and rejects any
further scan. -/
def storeOfPages {ι : Type} (pages : List (ScanPage ι)) : Store ι :=
  fun n =>
    match pages[n]? with
    | some p => .ok p
    | none => .error "no further page"

/-- A GET event of the history endpoint with the given `email` query parameter. -/
def getEvent (email : JsValue) : Event :=
  { httpMethod := .undefined
    contextMethod := .string "GET"
    body := none
    isBase64Encoded := false
    queryEmail := email }

/-- The record written by a lookup of `bitcoin` for `a@b.com` in the sample world when
the price provider refuses the request with status 429. -/
def sampleItemFailed : SearchRecord :=
  { searchId := "1b9d6bcd-bbfd-4b2d-9b5d-ab8dfbbd4bed"
    timestamp := 1700000000000
    cryptocurrencyId := .string "bitcoin"
    queriedPrice := none
    queriedCurrency := "usd"
    fetchStatus := "Failed: Failed to fetch price from CoinGecko: Request failed with status code 429"
    recipientEmail := .string "a@b.com" }

/-! ## Facts about `includes` -/

theorem includesAux_iff (needle : List Char) (s : List Char) :
    includesAux needle s = true ↔ needle <:+: s := by
  induction s with
  | nil =>
    simp only [includesAux, List.infix_nil]
    rw [ List.isPrefixOf_iff_prefix, List.prefix_nil]
  | cons c cs ih =>
    simp only [includesAux, Bool.or_eq_true, ih, List.infix_cons_iff]
    rw [ List.isPrefixOf_iff_prefix]

theorem includes_iff (s needle : String) :
    includes s needle = true ↔ needle.data <:+: s.data :=
  includesAux_iff needle.data s.data

/-- A needle found in `p` is found in `p ++ x`. -/
theorem includes_append_left (p x needle : String) (h : includes p needle = true) :
    includes (p ++ x) needle = true := by
  rw [includes_iff] at h ⊢
  have : (p ++ x).data = p.data ++ x.data := rfl
  rw [this]
  exact h.trans (List.prefix_append p.data x.data).isInfix

/-- A needle found in `x` is found in `p ++ x`. -/
theorem includes_append_right (p x needle : String) (h : includes x needle = true) :
    includes (p ++ x) needle = true := by
  rw [includes_iff] at h ⊢
  have : (p ++ x).data = p.data ++ x.data := rfl
  rw [this]
  exact h.trans (List.suffix_append p.data x.data).isInfix

/-! ## Shared facts about the lookup handler -/

theorem recordSearchAndNotify_result (P : Platform) (env : Env) (w : World)
    (cryptoId recipientEmail : JsValue) (c : Caches) :
    (recordSearchAndNotify P env w cryptoId recipientEmail c).1
      = orchestratorResult w cryptoId recipientEmail
          (fetchCryptoPrice P env w cryptoId "usd" c).1 := by
  unfold recordSearchAndNotify orchestratorResult writeSearchToDb
  rcases fetchCryptoPrice P env w cryptoId "usd" c with ⟨fetched, c1, t1⟩
  rcases hput : w.dbPut with m | u
  · simp
  · cases u
    rcases sendNotificationEmail env w
      (getEmailContent P (buildItem w cryptoId recipientEmail fetched)) recipientEmail c1
      with ⟨r, c3, t3⟩
    cases fetched <;> simp

/-- The response of the lookup handler to a POST whose body passed validation. -/
theorem handler_valid (P : Platform) (env : Env) (w : World) (event : Event) (c : Caches)
    (body : String) (cryptoId recipientEmail : JsValue)
    (hmethod : event.httpMethod.orElse event.contextMethod = .string "POST")
    (hbody : event.body = some body) (hne : body ≠ "")
    (hparse : parseRequest P body event.isBase64Encoded = .ok (cryptoId, recipientEmail)) :
    (handler P env w event c).1
      = match (recordSearchAndNotify P env w cryptoId recipientEmail c).1 with
        | .ok item => { statusCode := 200, body := .record item }
        | .error e => createErrorResponse e := by
  unfold handler
  simp only [hmethod, hbody, hne, hparse, ne_eq, not_true_eq_false, if_false]
  rcases recordSearchAndNotify P env w cryptoId recipientEmail c with ⟨r, c1, t⟩
  cases r <;> rfl

/-- The response of the lookup handler to a valid POST request. -/
theorem handler_validPost (P : Platform) (env : Env) (w : World) (event : Event) (c : Caches)
    (cryptoId email : String) (hvalid : validPost P event cryptoId email = true) :
    (handler P env w event c).1
      = match orchestratorResult w (.string cryptoId) (.string email)
            (fetchCryptoPrice P env w (.string cryptoId) "usd" c).1 with
        | .ok item => { statusCode := 200, body := .record item }
        | .error e => createErrorResponse e := by
  unfold validPost at hvalid
  rcases hb : event.body with _ | body
  · simp [hb] at hvalid
  · simp only [hb, Bool.and_eq_true, decide_eq_true_eq] at hvalid
    obtain ⟨hm, ⟨⟨hne, hp⟩, hc⟩, hat⟩ := hvalid
    have hparse : parseRequest P body event.isBase64Encoded
        = .ok (.string cryptoId, .string email) := by
      have he : email ≠ "" := by
        intro h
        rw [h] at hat
        exact absurd hat (by decide)
      simp [parseRequest, hp, JsValue.truthy, hc, he, notEmailShaped, hat]
    rw [handler_valid P env w event c body _ _ hm hb hne hparse, recordSearchAndNotify_result]

/-- A failure of `fetchCryptoPrice` that happens after the API key was obtained carries
the marker of a price-fetch failure. -/
theorem fetchCryptoPrice_error_marked (P : Platform) (env : Env) (w : World) (cryptoId : String)
    (currency : String) (c : Caches) (key msg : String)
    (hkey : (getCoinGeckoApiKey env w.ssmKey c).1 = .ok key)
    (hfetch : (fetchCryptoPrice P env w (.string cryptoId) currency c).1 = .error msg) :
    includes msg "Failed to fetch price" = true := by
  unfold fetchCryptoPrice at hfetch
  rcases hk : getCoinGeckoApiKey env w.ssmKey c with ⟨r, c1, t1⟩
  rw [hk] at hkey hfetch
  simp only at hkey
  subst hkey
  simp only at hfetch
  rcases hp : w.priceApi with m | price
  · rw [hp] at hfetch
    simp only [Except.error.injEq] at hfetch
    subst hfetch
    exact includes_append_left _ _ _ (by decide)
  · rw [hp] at hfetch
    simp only at hfetch
    split at hfetch
    · simp at hfetch
    · simp only [Except.error.injEq] at hfetch
      subst hfetch
      exact includes_append_left _ _ _ (by decide)

/-- A price returned by `fetchCryptoPrice` is neither `undefined` nor `null`. -/
theorem fetchCryptoPrice_ok_defined (P : Platform) (env : Env) (w : World) (cryptoId : JsValue)
    (currency : String) (c : Caches) (p : JsValue)
    (hfetch : (fetchCryptoPrice P env w cryptoId currency c).1 = .ok p) :
    p ≠ .undefined ∧ p ≠ .null := by
  unfold fetchCryptoPrice at hfetch
  cases cryptoId <;> simp only [reduceCtorEq] at hfetch
  rcases hk : getCoinGeckoApiKey env w.ssmKey c with ⟨r, c1, t1⟩
  rw [hk] at hfetch
  rcases r with e | key
  · simp at hfetch
  · simp only at hfetch
    rcases hp : w.priceApi with m | price
    · rw [hp] at hfetch
      simp at hfetch
    · rw [hp] at hfetch
      simp only at hfetch
      split at hfetch
      · rename_i hdef
        simp only [Except.ok.injEq] at hfetch
        subst hfetch
        exact hdef
      · simp at hfetch

/-- The result of `fetchCryptoPrice` depends on the world through the answers of the
parameter store and of the price provider only, and on the module variables through
`coinGeckoApiKeyCache` only. -/
theorem fetchCryptoPrice_mail_irrelevant (P : Platform) (env : Env) (w : World)
    (cryptoId : JsValue) (currency : String) (c : Caches)
    (sm : SsmResult) (ct : Except String Unit) (sd : Except String String)
    (mc : Option String) (tr : Option Transporter) :
    (fetchCryptoPrice P env { w with ssmMail := sm, createTransport := ct, sendMail := sd }
        cryptoId currency { c with mailtrapTokenCache := mc, transporter := tr }).1
      = (fetchCryptoPrice P env w cryptoId currency c).1 := by
  unfold fetchCryptoPrice getCoinGeckoApiKey
  cases cryptoId <;> try rfl
  simp only
  rcases cached? c.coinGeckoApiKeyCache with _ | v
  · rcases w.ssmKey with m | p
    · rfl
    · simp only
      rcases (SsmResult.response p).value? with _ | v
      · rfl
      · simp only
        rcases w.priceApi with m | price
        · rfl
        · simp only
          split <;> rfl
  · simp only
    rcases w.priceApi with m | price
    · rfl
    · simp only
      split <;> rfl

/-! ## Claims about error classification and the success path -/

/-- C1 (defect of the code). A valid POST request whose store write fails is answered
with status 400 "Bad Request", not 500, when the message of the store's error contains
the word "Missing": the text of the cause, embedded in the wrapped message, is matched
by an earlier branch of `createErrorResponse` than the one meant for store failures. -/
theorem C1_store_failure_answered_400 :
    validPost samplePlatform (postEvent bitcoinBody) "bitcoin" "a@b.com" = true ∧
    (handler samplePlatform sampleEnv
        { sampleWorld with
          dbPut := .error "One or more parameter values were invalid: Missing the key id in the item" }
        (postEvent bitcoinBody) freshCaches).1
      = { statusCode := 400
          body := .failure "Bad Request"
            "Failed to store search history: One or more parameter values were invalid: Missing the key id in the item" } := by
  constructor
  · decide
  · decide

/-- C2 (counterexample). A valid POST request in which `fetchCryptoPrice` fails because
the API key cannot be read from the parameter store, and whose store write succeeds,
is answered with status 500 "Internal configuration error.", not 502. -/
theorem C2_counterexample_key_unavailable :
    validPost samplePlatform (postEvent bitcoinBody) "bitcoin" "a@b.com" = true ∧
    (fetchCryptoPrice samplePlatform sampleEnv
        { sampleWorld with ssmKey := .rejected "User is not authorized to perform: ssm:GetParameter" }
        (.string "bitcoin") "usd" freshCaches).1
      = .error "Could not retrieve CoinGecko API key from SSM: User is not authorized to perform: ssm:GetParameter" ∧
    sampleWorld.dbPut = .ok () ∧
    (handler samplePlatform sampleEnv
        { sampleWorld with ssmKey := .rejected "User is not authorized to perform: ssm:GetParameter" }
        (postEvent bitcoinBody) freshCaches).1
      = { statusCode := 500
          body := .failure "Internal configuration error."
            "Could not retrieve CoinGecko API key from SSM: User is not authorized to perform: ssm:GetParameter" } := by
  refine ⟨by decide, rfl, rfl, by decide⟩

/-- C2 (amended). For every valid POST request in which the API key is available, the
call to the price provider fails (it throws, or the response holds no price) and the
store write succeeds, the response has status 502 and carries the fetch error's
message, provided that message contains none of the texts that `createErrorResponse`
tests before the price-fetch texts. -/
theorem C2_provider_failure_answered_502 (P : Platform) (env : Env) (w : World)
    (event : Event) (c : Caches) (cryptoId email key msg : String)
    (hvalid : validPost P event cryptoId email = true)
    (hkey : (getCoinGeckoApiKey env w.ssmKey c).1 = .ok key)
    (hfetch : (fetchCryptoPrice P env w (.string cryptoId) "usd" c).1 = .error msg)
    (hput : w.dbPut = .ok ())
    (h405 : includes msg "Unsupported HTTP method" = false)
    (hmissing : includes msg "Missing" = false)
    (hjson : includes msg "Invalid JSON" = false)
    (hemail : includes msg "Invalid 'email' format" = false) :
    (handler P env w event c).1
      = { statusCode := 502
          body := .failure "Failed to retrieve cryptocurrency data." msg } := by
  have hmark := fetchCryptoPrice_error_marked P env w cryptoId "usd" c key msg hkey hfetch
  rw [handler_validPost P env w event c cryptoId email hvalid, hfetch]
  simp [orchestratorResult, hput, createErrorResponse, h405, hmissing, hjson, hemail, hmark]

/-- C2 (amended), at a concrete request: the provider answers with an HTTP error. -/
theorem C2_provider_failure_answered_502_witness :
    (handler samplePlatform sampleEnv
        { sampleWorld with priceApi := .error "Request failed with status code 429" }
        (postEvent bitcoinBody) freshCaches).1
      = { statusCode := 502
          body := .failure "Failed to retrieve cryptocurrency data."
            "Failed to fetch price from CoinGecko: Request failed with status code 429" } :=
  C2_provider_failure_answered_502 samplePlatform sampleEnv
    { sampleWorld with priceApi := .error "Request failed with status code 429" }
    (postEvent bitcoinBody) freshCaches "bitcoin" "a@b.com" "CG-demo-key"
    "Failed to fetch price from CoinGecko: Request failed with status code 429"
    (by decide) rfl rfl rfl (by decide) (by decide) (by decide) (by decide)

/-- C3. For every valid POST request in which the price fetch returns a value `p` and
the store write succeeds, the response has status 200 and its body is the record with
`fetchStatus = "Success"`, `queriedPrice` the string form of `p`, `queriedCurrency =
"usd"`, `cryptocurrencyId` the submitted `cryptoId` unchanged and `recipientEmail` the
submitted email. -/
theorem C3_success_response (P : Platform) (env : Env) (w : World)
    (event : Event) (c : Caches) (cryptoId email : String) (p : JsValue)
    (hvalid : validPost P event cryptoId email = true)
    (hfetch : (fetchCryptoPrice P env w (.string cryptoId) "usd" c).1 = .ok p)
    (hput : w.dbPut = .ok ()) :
    (handler P env w event c).1
      = { statusCode := 200
          body := .record
            { searchId := w.uuid
              timestamp := w.now
              cryptocurrencyId := .string cryptoId
              queriedPrice := some p.toStr
              queriedCurrency := "usd"
              fetchStatus := "Success"
              recipientEmail := .string email } } := by
  have hdef := fetchCryptoPrice_ok_defined P env w (.string cryptoId) "usd" c p hfetch
  rw [handler_validPost P env w event c cryptoId email hvalid, hfetch]
  simp [orchestratorResult, hput, buildItem, hdef.2]

/-- C3, at the request of the specification's example: the provider quotes 65000. -/
theorem C3_success_response_witness :
    (handler samplePlatform sampleEnv sampleWorld (postEvent bitcoinBody) freshCaches).1
      = { statusCode := 200
          body := .record
            { searchId := "1b9d6bcd-bbfd-4b2d-9b5d-ab8dfbbd4bed"
              timestamp := 1700000000000
              cryptocurrencyId := .string "bitcoin"
              queriedPrice := some "65000"
              queriedCurrency := "usd"
              fetchStatus := "Success"
              recipientEmail := .string "a@b.com" } } :=
  C3_success_response samplePlatform sampleEnv sampleWorld (postEvent bitcoinBody) freshCaches
    "bitcoin" "a@b.com" (.number true "65000") (by decide) rfl rfl

/-- The response of the lookup handler is `lookupResponse`. -/
theorem handler_response (P : Platform) (env : Env) (w : World) (event : Event) (c : Caches) :
    (handler P env w event c).1 = lookupResponse P env w event c := by
  unfold handler lookupResponse
  simp only
  split
  · rfl
  · rcases event.body with _ | body
    · rfl
    · simp only
      split
      · rfl
      · rcases parseRequest P body event.isBase64Encoded with e | ⟨cryptoId, recipientEmail⟩
        · rfl
        · simp only
          rw [← recordSearchAndNotify_result]
          rcases recordSearchAndNotify P env w cryptoId recipientEmail c with ⟨r, c1, t⟩
          cases r <;> rfl

/-- C4. The response of the lookup handler, and what `recordSearchAndNotify` returns or
throws for any arguments (a recipient that `sendNotificationEmail` refuses included),
do not depend on anything the email step meets: replacing the parameter store's answer
for the mail credential, the outcome of the transport construction, the outcome of
`sendMail`, the cached mail credential and the cached transport by any others changes
neither. Both are determined by the outcome of the price fetch and of the store write. -/
theorem C4_email_step_never_reaches_caller (P : Platform) (env : Env) (w : World)
    (event : Event) (c : Caches)
    (sm : SsmResult) (ct : Except String Unit) (sd : Except String String)
    (mc : Option String) (tr : Option Transporter) :
    (handler P env { w with ssmMail := sm, createTransport := ct, sendMail := sd } event
        { c with mailtrapTokenCache := mc, transporter := tr }).1
      = (handler P env w event c).1 ∧
    ∀ cryptoId recipientEmail : JsValue,
      (recordSearchAndNotify P env { w with ssmMail := sm, createTransport := ct, sendMail := sd }
          cryptoId recipientEmail { c with mailtrapTokenCache := mc, transporter := tr }).1
        = orchestratorResult w cryptoId recipientEmail
            (fetchCryptoPrice P env w cryptoId "usd" c).1 := by
  constructor
  · rw [handler_response, handler_response]
    unfold lookupResponse
    simp only [fetchCryptoPrice_mail_irrelevant]
    rfl
  · intro cryptoId recipientEmail
    rw [recordSearchAndNotify_result, fetchCryptoPrice_mail_irrelevant]
    rfl

/-! ## The order of requests in the orchestrator -/

theorem getCoinGeckoApiKey_trace (env : Env) (ssm : SsmResult) (c : Caches) :
    ∀ e ∈ (getCoinGeckoApiKey env ssm c).2.2, e.isSsm = true := by
  unfold getCoinGeckoApiKey
  rcases cached? c.coinGeckoApiKeyCache with _ | v
  · rcases ssm with m | p
    · simp [Effect.isSsm]
    · simp only
      rcases (SsmResult.response p).value? with _ | v <;> simp [Effect.isSsm]
  · simp

theorem getMailtrapToken_trace (env : Env) (ssm : SsmResult) (c : Caches) :
    ∀ e ∈ (getMailtrapToken env ssm c).2.2, e.isSsm = true := by
  unfold getMailtrapToken
  rcases cached? c.mailtrapTokenCache with _ | v
  · rcases ssm with m | p
    · simp [Effect.isSsm]
    · simp only
      rcases (SsmResult.response p).value? with _ | v <;> simp [Effect.isSsm]
  · simp

/-- The price fetch asks the parameter store and the price provider only. -/
theorem fetchCryptoPrice_trace (P : Platform) (env : Env) (w : World) (cryptoId : JsValue)
    (currency : String) (c : Caches) :
    ∀ e ∈ (fetchCryptoPrice P env w cryptoId currency c).2.2,
      e.isDbPut = false ∧ e.isMail = false := by
  have hk := getCoinGeckoApiKey_trace env w.ssmKey c
  unfold fetchCryptoPrice
  cases cryptoId <;> try simp
  rcases hg : getCoinGeckoApiKey env w.ssmKey c with ⟨r, c1, t1⟩
  rw [hg] at hk
  simp only at hk
  have hk2 : ∀ e ∈ t1, e.isDbPut = false ∧ e.isMail = false := by
    intro e he
    have := hk e he
    cases e <;> simp_all [Effect.isSsm, Effect.isDbPut, Effect.isMail]
  rcases r with e | key
  · simpa using hk2
  · simp only
    rcases w.priceApi with m | price
    · intro e he
      simp only [List.mem_append, List.mem_singleton] at he
      rcases he with he | rfl
      · exact hk2 e he
      · simp [Effect.isDbPut, Effect.isMail]
    · simp only
      split <;>
      · intro e he
        simp only [List.mem_append, List.mem_singleton] at he
        rcases he with he | rfl
        · exact hk2 e he
        · simp [Effect.isDbPut, Effect.isMail]

/-- The email step asks the parameter store and the mail relay only. -/
theorem sendNotificationEmail_trace (env : Env) (w : World) (content : EmailContent)
    (recipientEmail : JsValue) (c : Caches) :
    ∀ e ∈ (sendNotificationEmail env w content recipientEmail c).2.2,
      e.isDbPut = false ∧ e.isPriceGet = false := by
  have hk := getMailtrapToken_trace env w.ssmMail c
  unfold sendNotificationEmail ensureTransporter
  split
  · simp
  · rcases c.transporter with _ | tr
    · simp only
      rcases hg : getMailtrapToken env w.ssmMail c with ⟨r, c1, t1⟩
      rw [hg] at hk
      simp only at hk
      have hk2 : ∀ e ∈ t1, e.isDbPut = false ∧ e.isPriceGet = false := by
        intro e he
        have := hk e he
        cases e <;> simp_all [Effect.isSsm, Effect.isDbPut, Effect.isPriceGet]
      rcases r with e | token
      · simpa using hk2
      · simp only
        rcases w.createTransport with e | u
        · intro e he
          simp only [List.mem_append, List.mem_singleton] at he
          rcases he with he | rfl
          · exact hk2 e he
          · simp [Effect.isDbPut, Effect.isPriceGet]
        · simp only
          rcases w.sendMail with e | messageId <;>
          · intro e he
            simp only [List.mem_append, List.mem_singleton] at he
            rcases he with (he | rfl) | rfl
            · exact hk2 e he
            · simp [Effect.isDbPut, Effect.isPriceGet]
            · simp [Effect.isDbPut, Effect.isPriceGet]
    · simp only
      rcases w.sendMail with e | messageId <;> simp [Effect.isDbPut, Effect.isPriceGet]

/-- The requests of `recordSearchAndNotify`: those of the price fetch, then the store
write of the record, then those of the email step. -/
theorem recordSearchAndNotify_trace (P : Platform) (env : Env) (w : World)
    (cryptoId recipientEmail : JsValue) (c : Caches) :
    (recordSearchAndNotify P env w cryptoId recipientEmail c).2.2
      = (fetchCryptoPrice P env w cryptoId "usd" c).2.2
        ++ Effect.dbPut env.tableName
             (buildItem w cryptoId recipientEmail (fetchCryptoPrice P env w cryptoId "usd" c).1)
          :: emailStepTrace P env w
               (buildItem w cryptoId recipientEmail (fetchCryptoPrice P env w cryptoId "usd" c).1)
               recipientEmail (fetchCryptoPrice P env w cryptoId "usd" c).2.1 := by
  unfold recordSearchAndNotify emailStepTrace writeSearchToDb
  rcases fetchCryptoPrice P env w cryptoId "usd" c with ⟨fetched, c1, t1⟩
  rcases w.dbPut with m | u
  · simp
  · cases u
    simp only
    rcases sendNotificationEmail env w
      (getEmailContent P (buildItem w cryptoId recipientEmail fetched)) recipientEmail c1
      with ⟨r, c3, t3⟩
    cases fetched <;> simp

/-- C5. In every execution of `recordSearchAndNotify` the requests issued are, in
order: those of the price-fetch attempt (none of them a store write or a request to the
mail relay), then one store write, of the record built from the fetch's outcome, then
those of the email step (none of them a store write or a price request); so exactly
one store write is issued. When the store write fails nothing follows it. -/
theorem C5_one_store_write_between_fetch_and_email (P : Platform) (env : Env) (w : World)
    (cryptoId recipientEmail : JsValue) (c : Caches) :
    (recordSearchAndNotify P env w cryptoId recipientEmail c).2.2
      = (fetchCryptoPrice P env w cryptoId "usd" c).2.2
        ++ Effect.dbPut env.tableName
             (buildItem w cryptoId recipientEmail (fetchCryptoPrice P env w cryptoId "usd" c).1)
          :: emailStepTrace P env w
               (buildItem w cryptoId recipientEmail (fetchCryptoPrice P env w cryptoId "usd" c).1)
               recipientEmail (fetchCryptoPrice P env w cryptoId "usd" c).2.1 ∧
    (fetchCryptoPrice P env w cryptoId "usd" c).2.2.all
      (fun e => !e.isDbPut && !e.isMail) = true ∧
    (emailStepTrace P env w
      (buildItem w cryptoId recipientEmail (fetchCryptoPrice P env w cryptoId "usd" c).1)
      recipientEmail (fetchCryptoPrice P env w cryptoId "usd" c).2.1).all
      (fun e => !e.isDbPut && !e.isPriceGet) = true ∧
    ((recordSearchAndNotify P env w cryptoId recipientEmail c).2.2.filter Effect.isDbPut).length
      = 1 ∧
    ∀ m : String,
      (recordSearchAndNotify P env { w with dbPut := .error m } cryptoId recipientEmail c).2.2
        = (fetchCryptoPrice P env { w with dbPut := .error m } cryptoId "usd" c).2.2
          ++ [Effect.dbPut env.tableName
               (buildItem { w with dbPut := .error m } cryptoId recipientEmail
                 (fetchCryptoPrice P env { w with dbPut := .error m } cryptoId "usd" c).1)] := by
  have hfetch : (fetchCryptoPrice P env w cryptoId "usd" c).2.2.all
      (fun e => !e.isDbPut && !e.isMail) = true := by
    rw [List.all_eq_true]
    intro e he
    have := fetchCryptoPrice_trace P env w cryptoId "usd" c e he
    simp [this.1, this.2]
  have hmail : (emailStepTrace P env w
      (buildItem w cryptoId recipientEmail (fetchCryptoPrice P env w cryptoId "usd" c).1)
      recipientEmail (fetchCryptoPrice P env w cryptoId "usd" c).2.1).all
      (fun e => !e.isDbPut && !e.isPriceGet) = true := by
    rw [List.all_eq_true]
    intro e he
    unfold emailStepTrace at he
    rcases hput : w.dbPut with m | u
    · rw [hput] at he
      simp at he
    · rw [hput] at he
      have := sendNotificationEmail_trace env w _ _ _ e he
      simp [this.1, this.2]
  refine ⟨recordSearchAndNotify_trace P env w cryptoId recipientEmail c, hfetch, hmail, ?_, ?_⟩
  · rw [recordSearchAndNotify_trace, List.filter_append, List.filter_cons]
    have h1 : (fetchCryptoPrice P env w cryptoId "usd" c).2.2.filter Effect.isDbPut = [] := by
      rw [List.filter_eq_nil_iff]
      intro e he
      simp [(fetchCryptoPrice_trace P env w cryptoId "usd" c e he).1]
    have h2 : (emailStepTrace P env w
        (buildItem w cryptoId recipientEmail (fetchCryptoPrice P env w cryptoId "usd" c).1)
        recipientEmail (fetchCryptoPrice P env w cryptoId "usd" c).2.1).filter Effect.isDbPut
          = [] := by
      rw [List.filter_eq_nil_iff]
      intro e he
      rw [List.all_eq_true] at hmail
      have := hmail e he
      simp only [Bool.and_eq_true, Bool.not_eq_true'] at this
      simp [this.1]
    rw [h1, h2]
    simp [Effect.isDbPut]
  · intro m
    rw [recordSearchAndNotify_trace]
    rfl

/-! ## The paged scan of the history service -/

/-- The scan loop, entered at scan number `n`, on a table that answers the scans
`n, n + 1, ...` with the pages of a chained sequence. -/
theorem scanLoop_chained {ι : Type} (tableName : String) (store : Store ι) (email : String) :
    ∀ (pages : List (ScanPage ι)) (fuel n : Nat) (startKey : Option String)
      (allItems : List ι) (trace : List Effect),
      chained pages = true →
      (∀ i p, pages[i]? = some p → store (n + i) = .ok p) →
      pages.length ≤ fuel →
      scanLoop tableName store email fuel n startKey allItems trace
        = some (.ok (allItems ++ concatItems pages),
            trace ++ (startKey :: pages.dropLast.map (fun p => p.lastEvaluatedKey)).map
              (Effect.dbScan tableName email)) := by
  intro pages
  induction pages with
  | nil => intro fuel n startKey allItems trace hc; simp [chained] at hc
  | cons p ps ih =>
    intro fuel n startKey allItems trace hc hstore hfuel
    obtain ⟨fuel, rfl⟩ : ∃ k, fuel = k + 1 := ⟨fuel - 1, by simp at hfuel; omega⟩
    have hp : store n = .ok p := by simpa using hstore 0 p (by simp)
    cases ps with
    | nil =>
      simp only [chained, Option.isNone_iff_eq_none] at hc
      simp only [scanLoop, hp, hc, concatItems, List.dropLast_single, List.map_nil,
        List.map_cons, List.append_nil]
      rcases hi : p.items with _ | xs <;> simp [hi]
    | cons q rest =>
      simp only [chained, Bool.and_eq_true, Option.isSome_iff_exists] at hc
      obtain ⟨⟨key, hkey⟩, hrest⟩ := hc
      have hstore2 : ∀ i p2, (q :: rest)[i]? = some p2 → store (n + 1 + i) = .ok p2 := by
        intro i p2 hi
        have := hstore (i + 1) p2 (by simpa using hi)
        rwa [show n + 1 + i = n + (i + 1) by omega]
      have hfuel2 : (q :: rest).length ≤ fuel := by
        simp only [List.length_cons] at hfuel ⊢
        omega
      simp only [scanLoop, hp, hkey]
      rw [ih fuel (n + 1) (some key) _ _ hrest hstore2 hfuel2]
      rcases hi : p.items with _ | xs <;> simp [concatItems, hkey, List.dropLast, hi]

/-- C6. When the table answers the successive scans with a finite sequence of pages in
which every page but the last carries a continuation key and the last carries none,
`fetchSearchHistoryByEmail` (given at least one unit of fuel per page) returns the
items of all pages, concatenated in the order the pages were fetched, and has issued
exactly one scan per page: the first without a start key, each later one starting from
the key of the page before. -/
theorem C6_paged_scan_concatenates {ι : Type} (tableName : String) (store : Store ι)
    (email : String) (pages : List (ScanPage ι)) (fuel : Nat)
    (hchained : chained pages = true)
    (hstore : ∀ i p, pages[i]? = some p → store i = .ok p)
    (hfuel : pages.length ≤ fuel) :
    fetchSearchHistoryByEmail tableName store fuel email
      = some (.ok (concatItems pages), pageScans tableName email pages) ∧
    (pageScans tableName email pages).length = pages.length := by
  constructor
  · unfold fetchSearchHistoryByEmail pageScans
    rw [scanLoop_chained tableName store email pages fuel 0 none [] [] hchained
      (by simpa using hstore) hfuel]
    simp
  · cases pages with
    | nil => simp [chained] at hchained
    | cons p ps => simp [pageScans]

/-- C6, on a table whose first page carries a continuation key: two scans, the
second starting from that key, and the three items in order. -/
theorem C6_paged_scan_concatenates_witness :
    fetchSearchHistoryByEmail "CryptoSearchHistory" (storeOfPages samplePages) 2 "a@b.com"
      = some (.ok ["search-1", "search-2", "search-3"],
          [Effect.dbScan "CryptoSearchHistory" "a@b.com" none,
           Effect.dbScan "CryptoSearchHistory" "a@b.com" (some "key-1")]) :=
  (C6_paged_scan_concatenates "CryptoSearchHistory" (storeOfPages samplePages) "a@b.com"
    samplePages 2 (by decide) (by intro i p h; simp [storeOfPages, h]) (by decide)).1

/-! ## Claims about request validation -/

/-- C7 (defect of the code). A POST request whose body is the JSON text `null` is
answered with status 500 "An internal server error occurred.", not 400: reading
`parsedBody.cryptoId` throws a `TypeError` whose message no branch of
`createErrorResponse` recognises. The orchestrator is not invoked (no request is
issued, the module variables are unchanged). -/
theorem C7_null_body_answered_500 :
    handler samplePlatform sampleEnv sampleWorld (postEvent "null") freshCaches
      = ({ statusCode := 500
           body := .failure "An internal server error occurred."
             "Cannot read properties of null (reading 'cryptoId')" },
         freshCaches, []) := by
  decide

/-- An email that is a non-empty string without `@` is refused with status 400 by both
handlers, without any request to a collaborator, when the properties of the parsed body
have a string conversion. On the history endpoint the `details` are "Invalid 'email'
format in query string parameter". On the lookup endpoint they are "Invalid 'email'
format in request body" when the body also supplies a truthy `cryptoId`, and "Missing
'cryptoId' in request body" otherwise, the `cryptoId` being checked first. -/
theorem invalid_email_refused (P : Platform) (env : Env) (w : World) (c : Caches)
    (post : Event) (body : String) (cryptoId : JsValue)
    {ι : Type} (store : Store ι) (fuel : Nat) (get : Event) (email : String)
    (hemail : email ≠ "") (hat : includes email "@" = false)
    (hpost : post.httpMethod.orElse post.contextMethod = .string "POST")
    (hbody : post.body = some body) (hne : body ≠ "")
    (hparse : P.jsonParse (if post.isBase64Encoded then P.base64Decode body else body)
      = .value cryptoId (.string email))
    (hget : get.contextMethod.orElse get.httpMethod = .string "GET")
    (hquery : get.queryEmail = .string email) :
    handler P env w post c
      = ({ statusCode := 400
           body := .failure "Bad Request"
             (if cryptoId.truthy then "Invalid 'email' format in request body"
              else "Missing 'cryptoId' in request body") }, c, []) ∧
    historyHandler env.tableName store fuel get
      = some ({ statusCode := 400
                body := .failure "Bad Request"
                  "Invalid 'email' format in query string parameter" }, []) := by
  have h1 : createErrorResponse "Missing 'cryptoId' in request body"
      = { statusCode := 400
          body := .failure "Bad Request" "Missing 'cryptoId' in request body" } := by decide
  have h2 : createErrorResponse "Invalid 'email' format in request body"
      = { statusCode := 400
          body := .failure "Bad Request" "Invalid 'email' format in request body" } := by decide
  constructor
  · unfold handler
    simp only [hpost, hbody, hne, ne_eq, not_true_eq_false, if_false, parseRequest, hparse]
    cases htruthy : cryptoId.truthy
    · simp [h1]
    · simp [JsValue.truthy, hemail, notEmailShaped, hat, h2]
  · unfold historyHandler
    simp only [hget, hquery, ne_eq, not_true_eq_false, if_false, JsValue.truthy, hemail,
      not_false_eq_true, decide_True, Bool.not_true, Bool.false_eq_true, hat, Bool.not_false,
      if_true]
    rfl

/-- C8 (defect of the code). A POST request whose body holds the email
`"not-an-email"` and, as `cryptoId`, an object whose conversion to a string throws
(`{"toString": 1}`) is answered with status 500 "An internal server error occurred.",
not with 400 and `details` naming the `email` field: the log line of the inner `try`
converts the unvalidated `cryptoId` to a string before the email is validated, and the
`TypeError` it throws is recognised by no branch of `createErrorResponse`. The same
request with the `cryptoId` `"bitcoin"` is answered 400 "Invalid 'email' format in
request body". No request is issued in either case. -/
theorem C8_unprintable_cryptoId_answered_500 :
    handler samplePlatform sampleEnv sampleWorld
        (postEvent
          "\x7b\"cryptoId\":\x7b\"toString\":1\x7d,\"email\":\"not-an-email\"\x7d")
        freshCaches
      = ({ statusCode := 500
           body := .failure "An internal server error occurred."
             "Cannot convert object to primitive value" },
         freshCaches, []) ∧
    handler samplePlatform sampleEnv sampleWorld
        (postEvent "\x7b\"cryptoId\":\"bitcoin\",\"email\":\"not-an-email\"\x7d") freshCaches
      = ({ statusCode := 400
           body := .failure "Bad Request" "Invalid 'email' format in request body" },
         freshCaches, []) := by
  constructor <;> decide

/-- C9. An event whose resolved method (`event.httpMethod ?? event.requestContext?.http?.method`)
is not the string `POST` is answered 405 by the lookup handler, and an event whose
resolved method (`event.requestContext?.http?.method ?? event.httpMethod`) is not the
string `GET` is answered 405 by the history handler; neither issues any request, and
the module variables are unchanged. An absent method resolves to `undefined`. -/
theorem C9_wrong_method_answered_405 (P : Platform) (env : Env) (w : World) (c : Caches)
    (post : Event) {ι : Type} (store : Store ι) (fuel : Nat) (get : Event)
    (hpost : post.httpMethod.orElse post.contextMethod ≠ .string "POST")
    (hget : get.contextMethod.orElse get.httpMethod ≠ .string "GET") :
    handler P env w post c
      = ({ statusCode := 405
           body := .failure
             ("Unsupported HTTP method: " ++ (post.httpMethod.orElse post.contextMethod).toStr)
             "Only POST method is accepted." }, c, []) ∧
    historyHandler env.tableName store fuel get
      = some ({ statusCode := 405
                body := .failure
                  ("Unsupported HTTP method: " ++ (get.contextMethod.orElse get.httpMethod).toStr)
                  "Only GET method is accepted." }, []) := by
  constructor
  · unfold handler
    simp only [hpost, ne_eq, not_false_eq_true, if_true, createErrorResponse,
      includes_append_left "Unsupported HTTP method: " _ "Unsupported HTTP method" (by decide)]
  · unfold historyHandler
    simp only [hget, ne_eq, not_false_eq_true, if_true, createHistoryErrorResponse,
      includes_append_left "Unsupported HTTP method: " _ "Unsupported HTTP method" (by decide)]
    rfl

/-- C9, at the event of the repository's test (a GET sent to the lookup handler) and
at a POST sent to the history handler. -/
theorem C9_wrong_method_answered_405_witness :
    handler samplePlatform sampleEnv sampleWorld (getEvent .undefined) freshCaches
      = ({ statusCode := 405
           body := .failure "Unsupported HTTP method: GET" "Only POST method is accepted." },
         freshCaches, []) ∧
    historyHandler sampleEnv.tableName (storeOfPages samplePages) 2 (postEvent bitcoinBody)
      = some ({ statusCode := 405
                body := .failure "Unsupported HTTP method: POST" "Only GET method is accepted." },
              []) :=
  C9_wrong_method_answered_405 samplePlatform sampleEnv sampleWorld freshCaches
    (getEvent .undefined) (storeOfPages samplePages) 2 (postEvent bitcoinBody)
    (by decide) (by decide)

/-! ## The secret cache -/

/-- A getter whose cache holds a truthy value returns it without asking the parameter
store and leaves the module variables as they are. -/
theorem callGetter_cached (env : Env) (g : Getter) (ssm : SsmResult) (c : Caches) (v : String)
    (h : cached? (g.cache c) = some v) :
    callGetter env g ssm c = (.ok v, c, []) := by
  cases g <;>
    simp only [Getter.cache] at h <;>
    simp [callGetter, getMailtrapToken, getCoinGeckoApiKey, h]

/-- After a successful call the getter's cache holds the value returned. -/
theorem callGetter_ok_cached (env : Env) (g : Getter) (ssm : SsmResult) (c : Caches)
    (v : String) (h : (callGetter env g ssm c).1 = .ok v) :
    cached? (g.cache (callGetter env g ssm c).2.1) = some v := by
  cases g
  · simp only [callGetter, getMailtrapToken, Getter.cache] at h ⊢
    rcases hc : cached? c.mailtrapTokenCache with _ | v0
    · rw [hc] at h
      simp only [hc]
      rcases ssm with m | p
      · simp at h
      · simp only at h ⊢
        rcases hv : (SsmResult.response p).value? with _ | v1
        · rw [hv] at h
          simp at h
        · rw [hv] at h
          simp only [Except.ok.injEq] at h
          subst h
          have hne : v1 ≠ "" := by
            unfold SsmResult.value? at hv
            split at hv
            · split at hv
              · simp only [Option.some.injEq] at hv
                subst hv
                assumption
              · simp at hv
            · simp at hv
          simp [cached?, hne]
    · rw [hc] at h
      simp only [Except.ok.injEq] at h
      subst h
      simp only [hc]
  · simp only [callGetter, getCoinGeckoApiKey, Getter.cache] at h ⊢
    rcases hc : cached? c.coinGeckoApiKeyCache with _ | v0
    · rw [hc] at h
      simp only [hc]
      rcases ssm with m | p
      · simp at h
      · simp only at h ⊢
        rcases hv : (SsmResult.response p).value? with _ | v1
        · rw [hv] at h
          simp at h
        · rw [hv] at h
          simp only [Except.ok.injEq] at h
          subst h
          have hne : v1 ≠ "" := by
            unfold SsmResult.value? at hv
            split at hv
            · split at hv
              · simp only [Option.some.injEq] at hv
                subst hv
                assumption
              · simp at hv
            · simp at hv
          simp [cached?, hne]
    · rw [hc] at h
      simp only [Except.ok.injEq] at h
      subst h
      simp only [hc]

/-- A call to a getter changes at most its own cache, and only when that cache held
no truthy value. -/
theorem callGetter_preserves (env : Env) (g g2 : Getter) (ssm : SsmResult) (c : Caches)
    (v : String) (h : cached? (g.cache c) = some v) :
    cached? (g.cache (callGetter env g2 ssm c).2.1) = some v := by
  cases g2
  · simp only [callGetter, getMailtrapToken]
    rcases hc : cached? c.mailtrapTokenCache with _ | v0
    · rcases ssm with m | p
      · exact h
      · simp only
        rcases (SsmResult.response p).value? with _ | v1
        · exact h
        · cases g
          · simp only [Getter.cache] at h
            rw [hc] at h
            simp at h
          · exact h
    · exact h
  · simp only [callGetter, getCoinGeckoApiKey]
    rcases hc : cached? c.coinGeckoApiKeyCache with _ | v0
    · rcases ssm with m | p
      · exact h
      · simp only
        rcases (SsmResult.response p).value? with _ | v1
        · exact h
        · cases g
          · exact h
          · simp only [Getter.cache] at h
            rw [hc] at h
            simp at h
    · exact h

theorem runGetters_preserves (env : Env) (g : Getter) (v : String) :
    ∀ (calls : List (Getter × SsmResult)) (c : Caches),
      cached? (g.cache c) = some v → cached? (g.cache (runGetters env calls c)) = some v := by
  intro calls
  induction calls with
  | nil => intro c h; exact h
  | cons call rest ih =>
    intro c h
    obtain ⟨g2, ssm⟩ := call
    exact ih _ (callGetter_preserves env g g2 ssm c v h)

/-- A failed call to a getter leaves the module variables as they were. -/
theorem callGetter_error_unchanged (env : Env) (g : Getter) (ssm : SsmResult) (c : Caches)
    (e : String) (h : (callGetter env g ssm c).1 = .error e) :
    (callGetter env g ssm c).2.1 = c := by
  cases g
  · simp only [callGetter, getMailtrapToken] at h ⊢
    rcases hc : cached? c.mailtrapTokenCache with _ | v0
    · rw [hc] at h
      rcases ssm with m | p
      · rfl
      · simp only at h ⊢
        rcases hv : (SsmResult.response p).value? with _ | v1
        · rfl
        · rw [hv] at h
          simp at h
    · rfl
  · simp only [callGetter, getCoinGeckoApiKey] at h ⊢
    rcases hc : cached? c.coinGeckoApiKeyCache with _ | v0
    · rw [hc] at h
      rcases ssm with m | p
      · rfl
      · simp only at h ⊢
        rcases hv : (SsmResult.response p).value? with _ | v1
        · rfl
        · rw [hv] at h
          simp at h
    · rfl

/-- C10. In a sequential run of calls to the two secret getters: once a call to a
getter has returned `v`, every later call to that getter, after any further getter
calls and whatever the parameter store would answer, returns `v`, issues no
parameter-store request and leaves the module variables as they are; and a call that
fails leaves the module variables (both caches) exactly as they were. -/
theorem C10_secret_cache (env : Env) (g : Getter) (ssm : SsmResult) (c : Caches) :
    (∀ v : String, (callGetter env g ssm c).1 = .ok v →
      ∀ (calls : List (Getter × SsmResult)) (later : SsmResult),
        callGetter env g later (runGetters env calls (callGetter env g ssm c).2.1)
          = (.ok v, runGetters env calls (callGetter env g ssm c).2.1, [])) ∧
    (∀ e : String, (callGetter env g ssm c).1 = .error e →
      (callGetter env g ssm c).2.1 = c) := by
  constructor
  · intro v hv calls later
    exact callGetter_cached env g later _ v
      (runGetters_preserves env g v calls _ (callGetter_ok_cached env g ssm c v hv))
  · intro e he
    exact callGetter_error_unchanged env g ssm c e he

/-- C10, on a fresh module: the price key is fetched once and then served from the
cache although the parameter store would now reject, a failed fetch of the mail
credential in between changes nothing, and that failure leaves the caches empty. -/
theorem C10_secret_cache_witness :
    callGetter sampleEnv .coinGeckoApiKey (.rejected "throttled")
        (runGetters sampleEnv [(.mailtrapToken, .rejected "throttled")]
          (callGetter sampleEnv .coinGeckoApiKey (.response (some (some "CG-demo-key")))
            freshCaches).2.1)
      = (.ok "CG-demo-key",
         runGetters sampleEnv [(.mailtrapToken, .rejected "throttled")]
          (callGetter sampleEnv .coinGeckoApiKey (.response (some (some "CG-demo-key")))
            freshCaches).2.1, []) ∧
    (callGetter sampleEnv .mailtrapToken (.rejected "throttled") freshCaches).2.1 = freshCaches :=
  ⟨(C10_secret_cache sampleEnv .coinGeckoApiKey (.response (some (some "CG-demo-key")))
      freshCaches).1 "CG-demo-key" rfl [(.mailtrapToken, .rejected "throttled")]
      (.rejected "throttled"),
   (C10_secret_cache sampleEnv .mailtrapToken (.rejected "throttled") freshCaches).2
      "Could not retrieve Mailtrap token from SSM: throttled" rfl⟩

/-! ## The persisted record -/

/-- The only store write of `recordSearchAndNotify` carries the record built from the
outcome of the price fetch. -/
theorem recordSearchAndNotify_dbPut_mem (P : Platform) (env : Env) (w : World)
    (cryptoId recipientEmail : JsValue) (c : Caches) (tableName : String) (item : SearchRecord)
    (hmem : Effect.dbPut tableName item
      ∈ (recordSearchAndNotify P env w cryptoId recipientEmail c).2.2) :
    item = buildItem w cryptoId recipientEmail (fetchCryptoPrice P env w cryptoId "usd" c).1 := by
  rw [recordSearchAndNotify_trace, List.mem_append, List.mem_cons] at hmem
  rcases hmem with h | h | h
  · have := (fetchCryptoPrice_trace P env w cryptoId "usd" c _ h).1
    simp [Effect.isDbPut] at this
  · simp only [Effect.dbPut.injEq] at h
    exact h.2
  · unfold emailStepTrace at h
    rcases hput : w.dbPut with m | u
    · rw [hput] at h
      simp at h
    · rw [hput] at h
      have := (sendNotificationEmail_trace env w _ _ _ _ h).1
      simp [Effect.isDbPut] at this

/-- A status of the form `"Failed: " + message` is not the initial status. -/
theorem failed_ne_pending (m : String) : "Failed: " ++ m ≠ "Pending" := by
  intro h
  have h2 : ("Failed: " ++ m).data = "Pending".data := congrArg String.data h
  have h3 : ("Failed: " ++ m).data = 'F' :: ("ailed: " ++ m).data := rfl
  rw [h3] at h2
  have h4 : "Pending".data = 'P' :: "ending".data := rfl
  rw [h4] at h2
  have h5 := (List.cons.inj h2).1
  exact absurd h5 (by decide)

/-- C11. Every record that `recordSearchAndNotify` passes to the store satisfies
exactly one of: its `fetchStatus` is "Success" and its `queriedPrice` is a string; or
its `fetchStatus` is "Failed: " followed by the message of the fetch error and its
`queriedPrice` is `null`. Its `fetchStatus` is never the initial "Pending", and its
`queriedPrice` is `null` if and only if the price fetch failed. -/
theorem C11_persisted_record_status (P : Platform) (env : Env) (w : World)
    (cryptoId recipientEmail : JsValue) (c : Caches) (tableName : String) (item : SearchRecord)
    (hmem : Effect.dbPut tableName item
      ∈ (recordSearchAndNotify P env w cryptoId recipientEmail c).2.2) :
    (((item.fetchStatus = "Success" ∧ ∃ price, item.queriedPrice = some price) ∧
        ¬ (∃ m, (fetchCryptoPrice P env w cryptoId "usd" c).1 = .error m ∧
            item.fetchStatus = "Failed: " ++ m ∧ item.queriedPrice = none)) ∨
      ((∃ m, (fetchCryptoPrice P env w cryptoId "usd" c).1 = .error m ∧
            item.fetchStatus = "Failed: " ++ m ∧ item.queriedPrice = none) ∧
        ¬ (item.fetchStatus = "Success" ∧ ∃ price, item.queriedPrice = some price))) ∧
    item.fetchStatus ≠ "Pending" ∧
    (item.queriedPrice = none ↔ ∃ m, (fetchCryptoPrice P env w cryptoId "usd" c).1 = .error m) := by
  have hitem := recordSearchAndNotify_dbPut_mem P env w cryptoId recipientEmail c tableName item hmem
  rcases hf : (fetchCryptoPrice P env w cryptoId "usd" c).1 with m | p
  · rw [hf] at hitem
    have hs : item.fetchStatus = "Failed: " ++ m := by rw [hitem]; rfl
    have hq : item.queriedPrice = none := by rw [hitem]; rfl
    refine ⟨Or.inr ⟨⟨m, rfl, hs, hq⟩, ?_⟩, ?_, ?_⟩
    · rintro ⟨_, price, hprice⟩
      rw [hq] at hprice
      exact absurd hprice (by simp)
    · rw [hs]
      exact failed_ne_pending m
    · exact ⟨fun _ => ⟨m, rfl⟩, fun _ => hq⟩
  · have hdef := fetchCryptoPrice_ok_defined P env w cryptoId "usd" c p hf
    rw [hf] at hitem
    have hs : item.fetchStatus = "Success" := by rw [hitem]; rfl
    have hq : item.queriedPrice = some p.toStr := by
      rw [hitem]
      simp [buildItem, hdef.2]
    refine ⟨Or.inl ⟨⟨hs, p.toStr, hq⟩, ?_⟩, ?_, ?_⟩
    · rintro ⟨m, hm, _⟩
      exact absurd hm (by simp)
    · rw [hs]
      decide
    · constructor
      · intro h
        rw [hq] at h
        exact absurd h (by simp)
      · rintro ⟨m, hm⟩
        exact absurd hm (by simp)

/-- C11, at the store write of a lookup whose price request was refused by the
provider: the record written carries the failure status and no price. -/
theorem C11_persisted_record_status_witness :
    (sampleItemFailed.fetchStatus
        = "Failed: Failed to fetch price from CoinGecko: Request failed with status code 429" ∧
      sampleItemFailed.queriedPrice = none) ∧
    sampleItemFailed.fetchStatus ≠ "Pending" :=
  have h := C11_persisted_record_status samplePlatform sampleEnv
    { sampleWorld with priceApi := .error "Request failed with status code 429" }
    (.string "bitcoin") (.string "a@b.com") freshCaches "CryptoSearchHistory" sampleItemFailed
    (by decide)
  ⟨⟨rfl, rfl⟩, h.2.1⟩

end CryptoApi
